import Mathlib

/-!
Verification of the ZPL visual editor core (file `ZPL_visual_editor.py`).

This file gives a shallow embedding of the core of the editor:
the scene-object data model (`ZPLObject`, `LabelSettings`), the ZPL
decoder (`parse_zpl_file`), the ZPL encoder (`generate_zpl`), and the
editor state with its snapshot-based undo/redo history and the mutating
operations (`add_object`, `delete_selected`, `paste_object`, `undo`,
`redo`, ...).  Theorems at the end settle the specification claims.

Modelling notes.
* Python `int` is modelled as `Int`; `SCALE = 1.0` makes `int(v * SCALE)`
  the identity on integers, so the scale factor is dropped.
* Python strings are Lean `String`s; the decoder works over `String.data`
  (a `List Char`), with Python's `re.findall(r'\d+', ...)` modelled by
  `digitRuns`, `str.split('\n')` by `splitNl`, `str.strip()` by `pyStrip`
  and `str.replace` by `chReplace`.  The recursive helpers carry an
  explicit fuel argument so that they are structurally recursive and
  evaluate inside the kernel; the fuel is always sufficient (see the
  congruence lemmas below).
* `uuid.uuid4()[:8]` (the random object identifier generated in
  `ZPLObject.__post_init__`) is modelled by a fresh-token supply: ids are
  `Nat`s drawn from a counter (`next_id` in the editor state, a local
  counter in the decoder), which captures the intent of the uuid — a
  token distinct from previously generated ones.
* Tk rendering, dialogs and file pickers are UI glue and are not part of
  the embedding; the modelled mutating operations are exactly the state
  transitions the UI callbacks perform on the scene, the clipboard and
  the history stacks.
-/

/-! ### Character/string helpers used by the decoder and encoder models -/

/-- `hasPre pre l` is true when `pre` is an initial segment of `l`
(models Python `str.startswith` and anchored `re.match`). -/
def hasPre : List Char → List Char → Bool
  | [], _ => true
  | _ :: _, [] => false
  | p :: ps, c :: cs => p == c && hasPre ps cs

/-- Whitespace test used by `pyStrip` (models `str.strip()`). -/
def isWS (c : Char) : Bool := c.isWhitespace

/-- Model of Python `str.strip()`: drop whitespace from both ends. -/
def pyStrip (l : List Char) : List Char :=
  ((l.dropWhile isWS).reverse.dropWhile isWS).reverse

/-- Model of Python `content.split('\n')`. -/
def splitNl : List Char → List (List Char)
  | [] => [[]]
  | c :: cs =>
      if c = '\n' then [] :: splitNl cs
      else
        match splitNl cs with
        | r :: rs => (c :: r) :: rs
        | [] => [[c]]

/-- Fuelled worker for `digitRuns`. -/
def digitRunsF : Nat → List Char → List (List Char)
  | 0, _ => []
  | fuel + 1, l =>
      match l with
      | [] => []
      | c :: cs =>
          if c.isDigit then
            (c :: cs.takeWhile Char.isDigit) :: digitRunsF fuel (cs.dropWhile Char.isDigit)
          else digitRunsF fuel cs

/-- Maximal runs of decimal digits in a character list
(models Python `re.findall(r'\d+', line)`). -/
def digitRuns (l : List Char) : List (List Char) := digitRunsF (l.length + 1) l

/-- Numeric value of a digit character. -/
def digitVal (c : Char) : Nat := c.toNat - '0'.toNat

/-- Model of Python `int(...)` applied to a run of decimal digits. -/
def foldDigits (l : List Char) : Nat := l.foldl (fun a c => a * 10 + digitVal c) 0

/-- The decimal digit character for `d < 10`. -/
def digitChar (d : Nat) : Char := Char.ofNat ('0'.toNat + d)

/-- Fuelled worker for `natChars`. -/
def natCharsF : Nat → Nat → List Char
  | 0, _ => []
  | fuel + 1, n =>
      if n < 10 then [digitChar n]
      else natCharsF fuel (n / 10) ++ [digitChar (n % 10)]

/-- Decimal digit characters of a natural number (most significant
first); models Python decimal rendering `str(n)` for `n ≥ 0`. -/
def natChars (n : Nat) : List Char := natCharsF (n + 1) n

/-- Model of Python `str(n)` for a natural number. -/
def natStr (n : Nat) : String := String.mk (natChars n)

/-- Model of Python `str(i)` for an integer. -/
def intStr (i : Int) : String :=
  if i < 0 then "-" ++ natStr i.natAbs else natStr i.natAbs

/-- Fuelled worker for `chReplace`. -/
def chReplaceF (pat rep : List Char) : Nat → List Char → List Char
  | 0, l => l
  | fuel + 1, l =>
      match l with
      | [] => []
      | c :: cs =>
          if pat ≠ [] ∧ hasPre pat (c :: cs) = true then
            rep ++ chReplaceF pat rep fuel ((c :: cs).drop pat.length)
          else c :: chReplaceF pat rep fuel cs

/-- Model of Python `str.replace pat rep` (all non-overlapping
occurrences, left to right). -/
def chReplace (pat rep l : List Char) : List Char := chReplaceF pat rep (l.length + 1) l

/-- Uppercase a character list (models Python `str.upper` on ASCII). -/
def upperChars (l : List Char) : List Char := l.map Char.toUpper

/-! ### Data model (`LabelSettings`, `ZPLObject`) -/

/-- The `LabelSettings` dataclass.  The physical sizes are Python floats,
modelled as exact rationals; they feed only the (unmodelled) canvas
geometry, never the encoder or decoder. -/
structure LabelSettings where
  width_mm : Rat := 100
  height_mm : Rat := 50
  dpi : Int := 203
  border : Bool := false
  orientation : String := "Portrait"
  snap_to_grid : Bool := false
  grid_size : Int := 10
deriving DecidableEq, Repr

/-- The `ZPLObject` dataclass: one flat record with all fields for every
variant, exactly as in the source.  `id` is the uuid token, modelled as a
`Nat` drawn from a fresh supply (see the header note). -/
structure ZPLObject where
  obj_type : String
  x : Int
  y : Int
  width : Int := 0
  height : Int := 0
  text : String := ""
  font_size : String := "30"
  font_type : String := "A"
  rotation : Int := 0
  thickness : Int := 2
  barcode_type : String := "128"
  line_thickness : Int := 3
  selected : Bool := false
  id : Nat := 0
  bar_module : Int := 3
  bar_ratio : Int := 2
  bar_height : Int := 100
  hri_above : Bool := false
deriving DecidableEq, Repr

/-! ### The decoder (`ZPLParser.parse_zpl_file`) -/

/-- Character class `[A-Z0-9]` of the parser's regexes. -/
def isUpperDigit (c : Char) : Bool := ('A' ≤ c && c ≤ 'Z') || c.isDigit

/-- Running state of the line scan in `parse_zpl_file`: accumulated
objects, current position, current font, and the fresh-id counter
standing in for `uuid4`. -/
structure ParseSt where
  objs : List ZPLObject := []
  cx : Int := 0
  cy : Int := 0
  cft : String := "A"
  cfs : String := "30"
  nid : Nat := 0
deriving DecidableEq, Repr

/-- One iteration of the `for line in lines` loop of `parse_zpl_file`. -/
def parseLine (st : ParseSt) (raw : List Char) : ParseSt :=
  let l := pyStrip raw
  if l = [] then st
  else if hasPre "^FO".data l then
    match digitRuns l with
    | a :: b :: _ => { st with cx := (foldDigits a : Nat), cy := (foldDigits b : Nat) }
    | _ => st
  else if hasPre "^A".data l then
    match l with
    | '^' :: 'A' :: f :: ',' :: 'N' :: ',' :: rest =>
        if isUpperDigit f && !(rest.takeWhile Char.isDigit).isEmpty then
          { st with cft := String.mk [f], cfs := String.mk (rest.takeWhile Char.isDigit) }
        else st
    | _ => st
  else if hasPre "^FD".data l then
    let txt := String.mk (chReplace "^FS".data [] (l.drop 3))
    { st with
      objs := st.objs ++ [{ obj_type := "text", x := st.cx, y := st.cy, width := 100,
                            height := 30, text := txt, font_size := st.cfs,
                            font_type := st.cft, id := st.nid }],
      nid := st.nid + 1 }
  else if hasPre "^GB".data l then
    match digitRuns l with
    | a :: b :: rest =>
        let t : Int := match rest with | c :: _ => (foldDigits c : Nat) | [] => 2
        { st with
          objs := st.objs ++ [{ obj_type := "rectangle", x := st.cx, y := st.cy,
                                width := (foldDigits a : Nat), height := (foldDigits b : Nat),
                                thickness := t, id := st.nid }],
          nid := st.nid + 1 }
    | _ => st
  else if hasPre "^GC".data l then
    match digitRuns l with
    | a :: rest =>
        let t : Int := match rest with | c :: _ => (foldDigits c : Nat) | [] => 2
        let d : Int := (foldDigits a : Nat)
        { st with
          objs := st.objs ++ [{ obj_type := "circle", x := st.cx, y := st.cy,
                                width := d, height := d, thickness := t, id := st.nid }],
          nid := st.nid + 1 }
    | _ => st
  else if hasPre "^B".data l then
    match l with
    | '^' :: 'B' :: rest =>
        let g := rest.takeWhile isUpperDigit
        if g.isEmpty then st
        else
          { st with
            objs := st.objs ++ [{ obj_type := "barcode", x := st.cx, y := st.cy,
                                  width := 120, height := 60, barcode_type := String.mk g,
                                  id := st.nid }],
            nid := st.nid + 1 }
    | _ => st
  else st

/-- `ZPLParser.parse_zpl_file`: best-effort reconstruction of scene
objects from ZPL command text. -/
def parse_zpl_file (content : String) : List ZPLObject :=
  ((splitNl content.data).foldl parseLine {}).objs

/-- A line of command text that begins (after stripping) with one of the
six command markers the decoder reacts to. -/
def isCommandLine (l : List Char) : Bool :=
  hasPre "^FO".data l || hasPre "^A".data l || hasPre "^FD".data l ||
  hasPre "^GB".data l || hasPre "^GC".data l || hasPre "^B".data l

/-! ### The encoder (`ZPLEditor.generate_zpl`) -/

/-- The barcode/text de-duplication condition of `generate_zpl`:
`t` is a redundant human-readable label for barcode `b`. -/
def suppressMatch (b t : ZPLObject) : Bool :=
  t.obj_type == "text" && t.text == b.text &&
  (t.x - b.x).natAbs ≤ 2 && (t.width - b.width).natAbs ≤ 2 &&
  (t.y - (b.y + b.height + 5)).natAbs ≤ 3

/-- `set.add` on the id set, modelled as a duplicate-free list. -/
def insertId (i : Nat) (l : List Nat) : List Nat := if i ∈ l then l else i :: l

/-- The `skip_text_ids` set computed by the first loop of `generate_zpl`:
for every barcode, the first matching text object is marked suppressed. -/
def skipTextIds (objects : List ZPLObject) : List Nat :=
  objects.foldl
    (fun acc obj =>
      if obj.obj_type == "barcode" then
        match objects.find? (fun t => suppressMatch obj t) with
        | some t => insertId t.id acc
        | none => acc
      else acc)
    []

/-- The image-name transformation of `generate_zpl`:
`obj.text.replace('.bmp', '').replace('.BMP', '')[:8].upper()`. -/
def codeImageName (t : String) : String :=
  String.mk (upperChars ((chReplace ".BMP".data [] (chReplace ".bmp".data [] t.data)).take 8))

/-- One iteration of the encoding loop of `generate_zpl`: the ZPL block
emitted for object `o` (empty for a suppressed text object). -/
def encodeObject (skip : List Nat) (o : ZPLObject) : String :=
  if o.obj_type == "text" && skip.contains o.id then ""
  else if o.obj_type == "barcode" then
    "^FO" ++ intStr o.x ++ "," ++ intStr o.y ++ "\n" ++
    "^BY" ++ intStr o.bar_module ++ "," ++ intStr o.bar_ratio ++ "," ++
      intStr o.bar_height ++ "\n" ++
    (let h := intStr o.height
     let hri := if o.hri_above then "Y" else "N"
     if o.barcode_type == "128" then "^BCN," ++ h ++ ",Y," ++ hri ++ ",Y\n"
     else if o.barcode_type == "39" then "^B3N,N," ++ h ++ ",Y," ++ hri ++ ",Y\n"
     else if o.barcode_type == "93" then "^BAN," ++ h ++ ",Y," ++ hri ++ ",Y\n"
     else if o.barcode_type == "I25" then "^B2N,N," ++ h ++ ",Y," ++ hri ++ ",Y\n"
     else if o.barcode_type == "EAN13" || o.barcode_type == "EAN8" then
       "^BEN," ++ h ++ ",Y," ++ hri ++ ",Y\n"
     else if o.barcode_type == "UPCA" || o.barcode_type == "UPCE" then
       "^BUN," ++ h ++ ",Y," ++ hri ++ ",Y\n"
     else "") ++
    "^FD" ++ o.text ++ "^FS\n"
  else
    "^FO" ++ intStr o.x ++ "," ++ intStr o.y ++ "\n" ++
    (if o.obj_type == "text" then
       "^A" ++ o.font_type ++ ",N," ++ o.font_size ++ "," ++ o.font_size ++ "\n" ++
       (if o.rotation ≠ 0 then "^FWR\n" else "") ++
       "^FD" ++ o.text ++ "^FS\n"
     else if o.obj_type == "rectangle" then
       "^GB" ++ intStr o.width ++ "," ++ intStr o.height ++ "," ++
         intStr o.thickness ++ "^FS\n"
     else if o.obj_type == "line" then
       if o.width > o.height then
         "^GB" ++ intStr o.width ++ "," ++ intStr (max 1 o.line_thickness) ++ ",B^FS\n"
       else
         "^GB" ++ intStr (max 1 o.line_thickness) ++ "," ++ intStr o.height ++ ",B^FS\n"
     else if o.obj_type == "circle" then
       "^GC" ++ intStr (min o.width o.height) ++ "," ++ intStr o.thickness ++ "^FS\n"
     else if o.obj_type == "image" then
       if o.text ≠ "" then "^XG" ++ codeImageName o.text ++ ",1,1^FS\n" else ""
     else "")

/-- `ZPLEditor.generate_zpl`: render a scene plus label settings into ZPL
command text. -/
def generate_zpl (ls : LabelSettings) (objects : List ZPLObject) : String :=
  let skip := skipTextIds objects
  "^XA\n" ++ (if ls.orientation == "Landscape" then "^POI\n" else "") ++
  objects.foldl (fun acc o => acc ++ encodeObject skip o) "" ++ "^XZ\n"

/-! ### Editor state, history and mutating operations -/

/-- The mutable editor state of `ZPLEditor` relevant to the core:
scene, selection, clipboard, both history stacks and the fresh-id
counter standing in for uuid generation. -/
structure EditorState where
  label_settings : LabelSettings := {}
  objects : List ZPLObject := []
  selected_object : Option ZPLObject := none
  clipboard_object : Option ZPLObject := none
  undo_stack : List (List ZPLObject) := []
  redo_stack : List (List ZPLObject) := []
  next_id : Nat := 0
deriving DecidableEq, Repr

/-- `self.max_undo_steps`. -/
def max_undo_steps : Nat := 50

/-- `ZPLEditor.save_state`: push a snapshot of the scene on the undo
stack (evicting the oldest entry past capacity) and clear the redo
stack.  Stack head is the most recent snapshot (Python `undo_stack[-1]`). -/
def save_state (s : EditorState) : EditorState :=
  let st := s.objects :: s.undo_stack
  { s with undo_stack := if max_undo_steps < st.length then st.dropLast else st,
           redo_stack := [] }

/-- `ZPLEditor.undo`: no-op unless the undo stack has more than one
entry; otherwise move the top snapshot to the redo stack and restore the
scene from the new top, clearing the selection. -/
def undo (s : EditorState) : EditorState :=
  match s.undo_stack with
  | cur :: prev :: rest =>
      { s with objects := prev, undo_stack := prev :: rest,
               redo_stack := cur :: s.redo_stack, selected_object := none }
  | _ => s

/-- `ZPLEditor.redo`: no-op when the redo stack is empty; otherwise move
a snapshot back to the undo stack and restore the scene from it,
clearing the selection. -/
def redo (s : EditorState) : EditorState :=
  match s.redo_stack with
  | st :: rest =>
      { s with objects := st, undo_stack := st :: s.undo_stack,
               redo_stack := rest, selected_object := none }
  | [] => s

/-- Round-half-to-even of the exact rational `num / den` (Python
`round(x / g)` on the exact quotient; `den` is the positive grid size). -/
def roundHalfEven (num den : Int) : Int :=
  let q := num.fdiv den
  let r := num.fmod den
  if 2 * r < den then q
  else if den < 2 * r then q + 1
  else if q % 2 = 0 then q else q + 1

/-- `ZPLEditor.snap_to_grid`: quantize to the grid when snapping is
enabled, identity otherwise. -/
def snap_to_grid (ls : LabelSettings) (x y : Int) : Int × Int :=
  if ls.snap_to_grid then
    (roundHalfEven x ls.grid_size * ls.grid_size,
     roundHalfEven y ls.grid_size * ls.grid_size)
  else (x, y)

/-- Clearing the selection flag of one object (the deselect loop of
`select_object`). -/
def deselect (o : ZPLObject) : ZPLObject := { o with selected := false }

/-- `ZPLEditor.add_object`: append a new object with variant defaults at
the snapped anchor (50,50), select it, commit a snapshot. -/
def add_object (t : String) (s : EditorState) : EditorState :=
  let p := snap_to_grid s.label_settings 50 50
  let base : ZPLObject :=
    { obj_type := t, x := p.1, y := p.2, width := 50, height := 20, text := "",
      font_size := "30", font_type := "A", rotation := 0, thickness := 2,
      barcode_type := "128", line_thickness := 3, selected := false, id := s.next_id,
      bar_module := 3, bar_ratio := 2, bar_height := 100, hri_above := false }
  let obj :=
    if t == "text" then { base with width := 100, height := 30, text := "Esempio" }
    else if t == "barcode" then { base with width := 120, height := 60, text := "123456789" }
    else if t == "rectangle" then { base with width := 80, height := 40 }
    else if t == "line" then { base with width := 100, height := 0 }
    else if t == "circle" then { base with width := 40, height := 40 }
    else if t == "image" then { base with width := 60, height := 60, text := "image.bmp" }
    else base
  let objSel := { obj with selected := true }
  save_state { s with objects := s.objects.map deselect ++ [objSel],
                      selected_object := some objSel,
                      next_id := s.next_id + 1 }

/-- Removal of the first equal element (Python `list.remove`, which uses
dataclass field equality). -/
def eraseFirst : List ZPLObject → ZPLObject → List ZPLObject
  | [], _ => []
  | x :: xs, o => if x = o then xs else x :: eraseFirst xs o

/-- `ZPLEditor.delete_selected`: remove the selected object and commit;
no-op when nothing is selected. -/
def delete_selected (s : EditorState) : EditorState :=
  match s.selected_object with
  | some o => save_state { s with objects := eraseFirst s.objects o, selected_object := none }
  | none => s

/-- `ZPLEditor.clear_all` (confirmed branch): empty the scene and commit. -/
def clear_all (s : EditorState) : EditorState :=
  save_state { s with objects := [], selected_object := none }

/-- `ZPLEditor.copy_object`: overwrite the clipboard with a deep copy of
the selected object, selection flag cleared; no-op when nothing is
selected. -/
def copy_object (s : EditorState) : EditorState :=
  match s.selected_object with
  | some o => { s with clipboard_object := some { o with selected := false } }
  | none => s

/-- `ZPLEditor.paste_object`: deep-copy the clipboard, offset by
(+20,+20), give it a fresh id, append it, select it, commit; no-op when
the clipboard is empty. -/
def paste_object (s : EditorState) : EditorState :=
  match s.clipboard_object with
  | some c =>
      let newObj := { c with x := c.x + 20, y := c.y + 20, id := s.next_id, selected := true }
      save_state { s with objects := s.objects.map deselect ++ [newObj],
                          selected_object := some newObj,
                          next_id := s.next_id + 1 }
  | none => s

/-- Index of the first equal element (Python `list.index`). -/
def idxOfFirst : List ZPLObject → ZPLObject → Nat
  | [], _ => 0
  | x :: xs, o => if x = o then 0 else idxOfFirst xs o + 1

/-- Swap of the neighbours at positions `i` and `i+1`. -/
def swapAt (l : List ZPLObject) (i : Nat) : List ZPLObject :=
  match l.get? i, l.get? (i + 1) with
  | some a, some b => (l.set i b).set (i + 1) a
  | _, _ => l

/-- `ZPLEditor.bring_forward`: swap the selected object with its next
neighbour in z-order and commit; no-op at the top or without selection. -/
def bring_forward (s : EditorState) : EditorState :=
  match s.selected_object with
  | some o =>
      let idx := idxOfFirst s.objects o
      if idx + 1 < s.objects.length then
        save_state { s with objects := swapAt s.objects idx }
      else s
  | none => s

/-- `ZPLEditor.send_backward`: swap the selected object with its
previous neighbour in z-order and commit; no-op at the bottom or
without selection. -/
def send_backward (s : EditorState) : EditorState :=
  match s.selected_object with
  | some o =>
      let idx := idxOfFirst s.objects o
      if 0 < idx then save_state { s with objects := swapAt s.objects (idx - 1) }
      else s
  | none => s

/-- Replacement of the first equal element (the in-place mutation of the
dragged object seen through the list). -/
def replaceFirst : List ZPLObject → ZPLObject → ZPLObject → List ZPLObject
  | [], _, _ => []
  | x :: xs, o, o2 => if x = o then o2 :: xs else x :: replaceFirst xs o o2

/-- A completed drag gesture (`on_canvas_drag` net displacement followed
by the `on_canvas_release` snapshot commit): move the selected object by
a delta, snap the result, commit. -/
def move_commit (dx dy : Int) (s : EditorState) : EditorState :=
  match s.selected_object with
  | some o =>
      let p := snap_to_grid s.label_settings (o.x + dx) (o.y + dy)
      let o2 := { o with x := p.1, y := p.2 }
      save_state { s with objects := replaceFirst s.objects o o2, selected_object := some o2 }
  | none => s

/-- `ZPLEditor.new_project` (confirmed branch): reset scene, settings
and both stacks, then commit the fresh initial snapshot. -/
def new_project (s : EditorState) : EditorState :=
  save_state { s with objects := [], selected_object := none,
                      undo_stack := [], redo_stack := [], label_settings := {} }

/-- `ZPLEditor.import_zpl_file` (core part, after the file read): parse
the content; when objects were recognized, replace or extend the scene
and commit, otherwise change nothing. -/
def import_zpl_file (replace : Bool) (content : String) (s : EditorState) : EditorState :=
  let parsed := parse_zpl_file content
  if parsed.isEmpty then s
  else save_state { s with objects := (if replace then [] else s.objects) ++ parsed,
                           selected_object := none }

/-- The editor state right after `ZPLEditor.__init__`: empty scene,
empty clipboard, and one initial snapshot on the undo stack. -/
def initEditor : EditorState := save_state {}

/-- The core operations reachable from the UI that touch the scene or
the history. -/
inductive EditorOp where
  | add (t : String)
  | del
  | clear
  | move (dx dy : Int)
  | forward
  | backward
  | paste
  | doUndo
  | doRedo
  | newProject
  | importOp (replace : Bool) (content : String)

/-- Dispatch of an `EditorOp` to its model. -/
def applyEditorOp : EditorOp → EditorState → EditorState
  | .add t, s => add_object t s
  | .del, s => delete_selected s
  | .clear, s => clear_all s
  | .move dx dy, s => move_commit dx dy s
  | .forward, s => bring_forward s
  | .backward, s => send_backward s
  | .paste, s => paste_object s
  | .doUndo, s => undo s
  | .doRedo, s => redo s
  | .newProject, s => new_project s
  | .importOp r c, s => import_zpl_file r c s

/-- A generic snapshot-committing mutating operation: the scene is
replaced by a function of itself and exactly one snapshot is committed
(the shape shared by every mutating operation above). -/
def commitOp (g : List ZPLObject → List ZPLObject) (s : EditorState) : EditorState :=
  save_state { s with objects := g s.objects }

/-! ### Spec-side definitions and concrete scenes used by the claims -/

/-- Modelled from the spec's words for claim C7: the graphics-reference
name operand is "the reference name uppercased, truncated to 8
characters, with its file extension stripped" — here: strip everything
from the last dot on (when a dot is present), truncate to 8 characters,
uppercase. -/
def specImageName (t : String) : String :=
  let base :=
    if '.' ∈ t.data then ((t.data.reverse.dropWhile (fun c => c != '.')).drop 1).reverse
    else t.data
  String.mk (upperChars (base.take 8))

/-- The Text object of claim C1: text "123456789" at (10,80) with the
text variant's default remaining fields (width 100, height 30, font A
size 30). -/
def c1Text : ZPLObject :=
  { obj_type := "text", x := 10, y := 80, width := 100, height := 30,
    text := "123456789", id := 1 }

/-- The Barcode object of claim C1: text "123456789" at (10,20), height
55, with the barcode variant's default remaining fields (width 120,
module 3, ratio 2, bar height 100, type "128"). -/
def c1Barcode : ZPLObject :=
  { obj_type := "barcode", x := 10, y := 20, width := 120, height := 55,
    text := "123456789", id := 2 }

/-- The 60 sequential add operations of claim C2 (the six variants in
rotation, ten times). -/
def adds60 : List String :=
  (List.replicate 10 ["text", "barcode", "rectangle", "line", "circle", "image"]).flatten

/-- The editor state after initialization followed by the 60 adds of
claim C2. -/
def after60Adds : EditorState := adds60.foldl (fun s t => add_object t s) initEditor

/-- The Rectangle with a negative x coordinate used as the claim C4
counterexample. -/
def c4Rect : ZPLObject :=
  { obj_type := "rectangle", x := -5, y := 13, width := 80, height := 40,
    thickness := 2, id := 9 }

/-- The Image object with a non-`.bmp` extension used as the claim C7
counterexample. -/
def c7Image : ZPLObject :=
  { obj_type := "image", x := 0, y := 0, width := 60, height := 60,
    text := "photo.png", id := 0 }

/-- The selected object of the concrete copy scenario used by the claim
C10 witness. -/
def copyDemoObj : ZPLObject := { obj_type := "text", x := 1, y := 2, selected := true }

/-- A concrete editor state with a selected object, used by the claim
C10 witness. -/
def copyDemoState : EditorState := { selected_object := some copyDemoObj }

/-- The clipboard content of the concrete paste scenario used by the
claim C6 witness. -/
def pasteDemoClip : ZPLObject := { obj_type := "circle", x := 5, y := 6, id := 0 }

/-- A concrete editor state with one scene object and a non-empty
clipboard, used by the claim C6 witness. -/
def pasteDemoState : EditorState :=
  { objects := [{ obj_type := "text", x := 0, y := 0, id := 0 }],
    clipboard_object := some pasteDemoClip,
    next_id := 3 }

/-- The object the claim C6 witness expects `paste` to append: the
clipboard source offset by (+20,+20) with the fresh id and the
selection flag set. -/
def pasteDemoNew : ZPLObject :=
  { pasteDemoClip with
    x := pasteDemoClip.x + 20
    y := pasteDemoClip.y + 20
    id := pasteDemoState.next_id
    selected := true }

/-! ### Basic facts about the history stacks -/

theorem save_state_stack_head (s : EditorState) :
    (save_state s).undo_stack.head? = some s.objects := by
  unfold save_state
  cases hu : s.undo_stack with
  | nil => simp [max_undo_steps]
  | cons a t =>
      simp only []
      split <;> simp [List.dropLast]

theorem save_state_stack_ne (s : EditorState) : (save_state s).undo_stack ≠ [] := by
  have h := save_state_stack_head s
  intro hc
  rw [hc] at h
  simp at h

theorem save_state_objects (s : EditorState) : (save_state s).objects = s.objects := rfl

theorem save_state_redo (s : EditorState) : (save_state s).redo_stack = [] := rfl

theorem undo_noop (s : EditorState) (h : s.undo_stack.length ≤ 1) : undo s = s := by
  cases hs : s.undo_stack with
  | nil => simp [undo, hs]
  | cons a t =>
      cases t with
      | nil => simp [undo, hs]
      | cons b r => rw [hs] at h; simp at h

theorem undo_iter_fix (s : EditorState) (h : s.undo_stack.length ≤ 1) (n : Nat) :
    (undo^[n]) s = s := by
  induction n with
  | zero => rfl
  | succ m ih => rw [Function.iterate_succ_apply, undo_noop s h, ih]

theorem redo_noop (s : EditorState) (h : s.redo_stack = []) : redo s = s := by
  simp [redo, h]

theorem redo_iter_fix (s : EditorState) (h : s.redo_stack = []) (n : Nat) :
    (redo^[n]) s = s := by
  induction n with
  | zero => rfl
  | succ m ih => rw [Function.iterate_succ_apply, redo_noop s h, ih]

theorem undo_stack_ne (s : EditorState) (h : s.undo_stack ≠ []) :
    (undo s).undo_stack ≠ [] := by
  cases hs : s.undo_stack with
  | nil => exact absurd hs h
  | cons a t =>
      cases t with
      | nil => simp [undo, hs]
      | cons b r => simp [undo, hs]

theorem undo_iter_char (k : Nat) : ∀ (s : EditorState), k + 2 ≤ s.undo_stack.length →
    (undo^[k + 1]) s =
      { s with objects := (s.undo_stack.drop (k + 1)).headD [],
               undo_stack := s.undo_stack.drop (k + 1),
               redo_stack := (s.undo_stack.take (k + 1)).reverse ++ s.redo_stack,
               selected_object := none } := by
  induction k with
  | zero =>
      rintro ⟨ls, objs, sel, clip, _ | ⟨a, _ | ⟨b, rest⟩⟩, rstack, nid⟩ h
      · simp at h
      · simp at h
      · simp [undo]
  | succ m ih =>
      rintro ⟨ls, objs, sel, clip, _ | ⟨a, _ | ⟨b, rest⟩⟩, rstack, nid⟩ h
      · simp at h
      · simp at h
      · rw [Function.iterate_succ_apply]
        have hu : undo ⟨ls, objs, sel, clip, a :: b :: rest, rstack, nid⟩ =
            ⟨ls, b, none, clip, b :: rest, a :: rstack, nid⟩ := by simp [undo]
        rw [hu, ih _ (by simp at h ⊢; omega)]
        simp [List.append_assoc]

theorem redo_iter_char (k : Nat) : ∀ (s : EditorState), k + 1 ≤ s.redo_stack.length →
    (redo^[k + 1]) s =
      { s with objects := (s.redo_stack.drop k).headD [],
               undo_stack := (s.redo_stack.take (k + 1)).reverse ++ s.undo_stack,
               redo_stack := s.redo_stack.drop (k + 1),
               selected_object := none } := by
  induction k with
  | zero =>
      rintro ⟨ls, objs, sel, clip, ustack, _ | ⟨a, rest⟩, nid⟩ h
      · simp at h
      · simp [redo]
  | succ m ih =>
      rintro ⟨ls, objs, sel, clip, ustack, _ | ⟨a, rest⟩, nid⟩ h
      · simp at h
      · rw [Function.iterate_succ_apply]
        have hr : redo ⟨ls, objs, sel, clip, ustack, a :: rest, nid⟩ =
            ⟨ls, a, none, clip, a :: ustack, rest, nid⟩ := by simp [redo]
        rw [hr, ih _ (by simp at h ⊢; omega)]
        simp [List.append_assoc]

theorem rev_take_drop_head {α : Type} (o d : α) (tail : List α) (m : Nat)
    (hm : m ≤ tail.length) :
    ((((o :: tail).take (m + 1)).reverse).drop m).headD d = o := by
  rw [List.take_succ_cons, List.reverse_cons]
  have hl : ((tail.take m).reverse).length = m := by
    simp [Nat.min_eq_left hm]
  have h2 := List.drop_left (tail.take m).reverse [o]
  rw [hl] at h2
  rw [h2]
  rfl

theorem undo_redo_objects (n : Nat) (s : EditorState)
    (hr : s.redo_stack = []) (hh : s.undo_stack.head? = some s.objects) :
    ((redo^[n]) ((undo^[n]) s)).objects = s.objects := by
  obtain ⟨tail, hu⟩ : ∃ tail, s.undo_stack = s.objects :: tail := by
    cases hs : s.undo_stack with
    | nil => rw [hs] at hh; simp at hh
    | cons a t =>
        rw [hs] at hh
        simp at hh
        exact ⟨t, by rw [hh]⟩
  cases n with
  | zero => rfl
  | succ m =>
      by_cases hsat : m + 2 ≤ s.undo_stack.length
      · rw [undo_iter_char m s hsat]
        set X : EditorState :=
          { s with objects := (s.undo_stack.drop (m + 1)).headD [],
                   undo_stack := s.undo_stack.drop (m + 1),
                   redo_stack := (s.undo_stack.take (m + 1)).reverse ++ s.redo_stack,
                   selected_object := none } with hX
        have hm1 : m + 1 ≤ tail.length := by
          rw [hu] at hsat; simp at hsat; omega
        have hxr : X.redo_stack = (s.undo_stack.take (m + 1)).reverse := by
          rw [hX]; simp [hr]
        have hxrl : m + 1 ≤ X.redo_stack.length := by
          rw [hxr, hu]
          simp
          omega
        rw [redo_iter_char m X hxrl]
        simp only []
        rw [hr, List.append_nil, hu]
        exact rev_take_drop_head s.objects [] tail m (by omega)
      · have hlm : tail.length ≤ m := by
          rw [hu] at hsat; simp at hsat; omega
        cases htail : tail with
        | nil =>
            have h1 : s.undo_stack.length ≤ 1 := by rw [hu, htail]; simp
            rw [undo_iter_fix s h1 (m + 1), redo_iter_fix s hr (m + 1)]
        | cons t0 ts =>
            have hk : m + 1 = (m - ts.length) + (ts.length + 1) := by
              rw [htail] at hlm; simp at hlm; omega
            have hchar := undo_iter_char ts.length s (by rw [hu, htail]; simp)
            set X : EditorState :=
              { s with objects := (s.undo_stack.drop (ts.length + 1)).headD [],
                       undo_stack := s.undo_stack.drop (ts.length + 1),
                       redo_stack := (s.undo_stack.take (ts.length + 1)).reverse ++ s.redo_stack,
                       selected_object := none } with hX
            have hXu : X.undo_stack.length ≤ 1 := by
              rw [hX]; simp only []; rw [hu, htail]; simp
            have hundo : (undo^[m + 1]) s = X := by
              rw [hk, Function.iterate_add_apply, hchar, undo_iter_fix X hXu (m - ts.length)]
            rw [hundo]
            have hxr : X.redo_stack = ((s.objects :: t0 :: ts).take (ts.length + 1)).reverse := by
              rw [hX]; simp only []; rw [hr, hu, htail]; simp
            have hxrlen : X.redo_stack.length = ts.length + 1 := by
              rw [hxr]; simp
            have hrchar := redo_iter_char ts.length X (by rw [hxrlen])
            set Y : EditorState :=
              { X with objects := (X.redo_stack.drop ts.length).headD [],
                       undo_stack := (X.redo_stack.take (ts.length + 1)).reverse ++ X.undo_stack,
                       redo_stack := X.redo_stack.drop (ts.length + 1),
                       selected_object := none } with hY
            have hYr : Y.redo_stack = [] := by
              rw [hY]; simp only []
              rw [← List.length_eq_zero, List.length_drop, hxrlen]
              omega
            have hredo : (redo^[m + 1]) X = Y := by
              rw [hk, Function.iterate_add_apply, hrchar, redo_iter_fix Y hYr (m - ts.length)]
            rw [hredo]
            rw [hY]; simp only []
            rw [hr, List.append_nil, hu, htail]
            exact rev_take_drop_head s.objects [] (t0 :: ts) ts.length (by simp)

theorem commitOp_redo (g : List ZPLObject → List ZPLObject) (s : EditorState) :
    (commitOp g s).redo_stack = [] := rfl

theorem commitOp_head (g : List ZPLObject → List ZPLObject) (s : EditorState) :
    (commitOp g s).undo_stack.head? = some (commitOp g s).objects := by
  unfold commitOp
  rw [save_state_objects]
  exact save_state_stack_head _

theorem foldl_commit_redo (gs : List (List ZPLObject → List ZPLObject)) (s : EditorState)
    (h : s.redo_stack = []) :
    (gs.foldl (fun t g => commitOp g t) s).redo_stack = [] := by
  induction gs generalizing s with
  | nil => exact h
  | cons g gs ih => exact ih (commitOp g s) (commitOp_redo g s)

theorem foldl_commit_head (gs : List (List ZPLObject → List ZPLObject)) (s : EditorState)
    (h : s.undo_stack.head? = some s.objects) :
    (gs.foldl (fun t g => commitOp g t) s).undo_stack.head? =
      some (gs.foldl (fun t g => commitOp g t) s).objects := by
  induction gs generalizing s with
  | nil => exact h
  | cons g gs ih => exact ih (commitOp g s) (commitOp_head g s)

/-- Claim C3: for any sequence of `N` snapshot-committing mutating
operations applied after initialization, `undo` applied `N` times
(any excess application past the bottom of the stack is a no-op)
followed by `redo` applied `N` times restores an object list equal
(deep equality is plain equality of the modelled values) to the scene
state immediately after the `N`-th operation; no new mutation intervenes
between the undos and redos. -/
theorem undo_redo_symmetry (gs : List (List ZPLObject → List ZPLObject)) :
    ((redo^[gs.length]) ((undo^[gs.length])
        (gs.foldl (fun t g => commitOp g t) initEditor))).objects =
      (gs.foldl (fun t g => commitOp g t) initEditor).objects := by
  apply undo_redo_objects
  · exact foldl_commit_redo gs initEditor rfl
  · exact foldl_commit_head gs initEditor (save_state_stack_head _)

theorem save_state_len (s : EditorState) (h : s.undo_stack.length ≤ 50) :
    (save_state s).undo_stack.length = min (s.undo_stack.length + 1) 50 := by
  unfold save_state
  simp only [max_undo_steps]
  split
  · rename_i hcond
    simp only [List.length_cons] at hcond
    simp only [List.length_dropLast, List.length_cons]
    omega
  · rename_i hcond
    simp only [List.length_cons] at hcond
    simp only [List.length_cons]
    omega

theorem add_object_len (t : String) (s : EditorState) (h : s.undo_stack.length ≤ 50) :
    (add_object t s).undo_stack.length = min (s.undo_stack.length + 1) 50 :=
  save_state_len _ h

theorem foldl_add_len (ts : List String) : ∀ s : EditorState, s.undo_stack.length ≤ 50 →
    (ts.foldl (fun s t => add_object t s) s).undo_stack.length =
      min (s.undo_stack.length + ts.length) 50 := by
  induction ts with
  | nil =>
      intro s h
      simp [Nat.min_eq_left h]
  | cons t ts ih =>
      intro s h
      rw [List.foldl_cons, ih (add_object t s) (by rw [add_object_len t s h]; omega)]
      rw [add_object_len t s h]
      simp only [List.length_cons]
      omega

set_option maxRecDepth 100000 in
/-- Claim C2: starting from a freshly initialized editor, 60 sequential
`add` operations leave the undo stack at exactly 50 entries — proved for
every choice of the 60 added variants, and instantiated at the six
variants in rotation; on that run, repeated `undo` (60 applications,
more than enough to reach the no-op fixpoint, which is reached at stack
length 1) restores a scene of 11 objects — the snapshot taken after the
11th add — so neither the initial empty state nor the first ten
snapshots are recoverable. -/
theorem history_bounds_60_adds :
    (∀ ts : List String, ts.length = 60 →
        (ts.foldl (fun s t => add_object t s) initEditor).undo_stack.length = 50) ∧
    adds60.length = 60 ∧
    after60Adds.undo_stack.length = 50 ∧
    ((undo^[60]) after60Adds).undo_stack.length = 1 ∧
    ((undo^[60]) after60Adds).objects.length = 11 ∧
    ((undo^[60]) after60Adds).objects ≠ [] := by
  refine ⟨?_, by decide, by decide, by decide, by decide, by decide⟩
  intro ts h
  rw [foldl_add_len ts initEditor (by decide),
      show initEditor.undo_stack.length = 1 from rfl, h]
  omega

set_option maxRecDepth 100000 in
/-- Witness for the claim C2 theorem: the universal stack-length bound
applied to the concrete 60-add run. -/
theorem history_bounds_60_adds_witness :
    adds60.length = 60 ∧
    (adds60.foldl (fun s t => add_object t s) initEditor).undo_stack.length = 50 :=
  ⟨by decide, history_bounds_60_adds.1 adds60 (by decide)⟩

/-- Claim C9: once the history is initialized the undo stack never
becomes empty: every core operation maps a state with a non-empty undo
stack to a state with a non-empty undo stack; `undo` is a no-op at stack
length 1; hence repeated `undo` never empties the stack. -/
theorem undo_stack_ge_one :
    (∀ (op : EditorOp) (s : EditorState), s.undo_stack ≠ [] →
        (applyEditorOp op s).undo_stack ≠ []) ∧
    (∀ s : EditorState, s.undo_stack.length = 1 → undo s = s) ∧
    (∀ (n : Nat) (s : EditorState), s.undo_stack ≠ [] →
        ((undo^[n]) s).undo_stack ≠ []) := by
  refine ⟨?_, ?_, ?_⟩
  · intro op s h
    cases op with
    | add t => exact save_state_stack_ne _
    | del =>
        cases hs : s.selected_object with
        | none => simpa [applyEditorOp, delete_selected, hs] using h
        | some o =>
            simp only [applyEditorOp, delete_selected, hs]
            exact save_state_stack_ne _
    | clear => exact save_state_stack_ne _
    | move dx dy =>
        cases hs : s.selected_object with
        | none => simpa [applyEditorOp, move_commit, hs] using h
        | some o =>
            simp only [applyEditorOp, move_commit, hs]
            exact save_state_stack_ne _
    | forward =>
        cases hs : s.selected_object with
        | none => simpa [applyEditorOp, bring_forward, hs] using h
        | some o =>
            simp only [applyEditorOp, bring_forward, hs]
            split
            · exact save_state_stack_ne _
            · exact h
    | backward =>
        cases hs : s.selected_object with
        | none => simpa [applyEditorOp, send_backward, hs] using h
        | some o =>
            simp only [applyEditorOp, send_backward, hs]
            split
            · exact save_state_stack_ne _
            · exact h
    | paste =>
        cases hc : s.clipboard_object with
        | none => simpa [applyEditorOp, paste_object, hc] using h
        | some c =>
            simp only [applyEditorOp, paste_object, hc]
            exact save_state_stack_ne _
    | doUndo => exact undo_stack_ne s h
    | doRedo =>
        cases hr : s.redo_stack with
        | nil => simpa [applyEditorOp, redo, hr] using h
        | cons a rest => simp [applyEditorOp, redo, hr]
    | newProject => exact save_state_stack_ne _
    | importOp r c =>
        simp only [applyEditorOp, import_zpl_file]
        split
        · exact h
        · exact save_state_stack_ne _
  · intro s h
    exact undo_noop s (by omega)
  · intro n s h
    induction n with
    | zero => exact h
    | succ m ih =>
        rw [Function.iterate_succ_apply']
        exact undo_stack_ne _ ih

/-- Witness for the claim C9 theorem: concrete instances of all three
conjuncts at the freshly initialized editor. -/
theorem undo_stack_ge_one_witness :
    (applyEditorOp (.add "text") initEditor).undo_stack ≠ [] ∧
    undo initEditor = initEditor ∧
    ((undo^[3]) initEditor).undo_stack ≠ [] :=
  ⟨undo_stack_ge_one.1 (.add "text") initEditor (by decide),
   undo_stack_ge_one.2.1 initEditor (by decide),
   undo_stack_ge_one.2.2 3 initEditor (by decide)⟩

/-- Claim C10: `copy` leaves the scene list, the undo stack and the redo
stack unchanged; with no selection it is a complete no-op, and with a
selected object it only overwrites the clipboard with a copy of the
selected object whose selection flag is cleared.  In particular it
commits no history snapshot. -/
theorem copy_frame (s : EditorState) :
    (copy_object s).objects = s.objects ∧
    (copy_object s).undo_stack = s.undo_stack ∧
    (copy_object s).redo_stack = s.redo_stack ∧
    (s.selected_object = none → copy_object s = s) ∧
    (∀ o, s.selected_object = some o →
        copy_object s = { s with clipboard_object := some { o with selected := false } }) := by
  cases hs : s.selected_object with
  | none => simp [copy_object, hs]
  | some o =>
      have hco : copy_object s = { s with clipboard_object := some { o with selected := false } } := by
        simp [copy_object, hs]
      refine ⟨by rw [hco], by rw [hco], by rw [hco], by simp [hs], ?_⟩
      intro o2 ho2
      obtain rfl : o = o2 := by injection ho2
      rw [hco]
      simp [hs]

/-- Witness for the claim C10 theorem: the no-selection no-op and the
clipboard overwrite at concrete states. -/
theorem copy_frame_witness :
    copy_object ({} : EditorState) = ({} : EditorState) ∧
    copy_object copyDemoState =
      { copyDemoState with clipboard_object := some { copyDemoObj with selected := false } } :=
  ⟨(copy_frame _).2.2.2.1 rfl, (copy_frame _).2.2.2.2 _ rfl⟩

/-- Claim C6: with a non-empty clipboard (and the id-freshness invariant
of the fresh-token supply standing in for uuid generation), `paste`
appends exactly one new object whose position is the clipboard source
offset by (+20,+20) and whose identifier differs from the identifier of
every object already in the scene. -/
theorem paste_fresh_offset (s : EditorState) (c : ZPLObject)
    (hc : s.clipboard_object = some c)
    (hid : ∀ o ∈ s.objects, o.id < s.next_id) :
    (paste_object s).objects =
      s.objects.map deselect ++
        [{ c with x := c.x + 20, y := c.y + 20, id := s.next_id, selected := true }] ∧
    (∀ o ∈ s.objects, o.id ≠ s.next_id) := by
  constructor
  · simp [paste_object, hc, save_state]
  · intro o ho
    exact Nat.ne_of_lt (hid o ho)

/-- Witness for the claim C6 theorem at a concrete state. -/
theorem paste_fresh_offset_witness :
    (paste_object pasteDemoState).objects =
      pasteDemoState.objects.map deselect ++ [pasteDemoNew] ∧
    (∀ o ∈ pasteDemoState.objects, o.id ≠ pasteDemoState.next_id) :=
  paste_fresh_offset pasteDemoState pasteDemoClip rfl (by decide)

/-- Claim C1 counterexample: with each variant's default remaining
fields the Text width is 100 and the Barcode width is 120; they differ
by 20 > 2, so the suppression condition of `generate_zpl` does not fire.
The skip set is empty, the Text object's block — position, font and
field-data commands — is emitted in full, and the generated command text
contains the Text field-data block rather than omitting it. -/
theorem barcode_text_suppression_cex :
    skipTextIds [c1Text, c1Barcode] = [] ∧
    suppressMatch c1Barcode c1Text = false ∧
    encodeObject (skipTextIds [c1Text, c1Barcode]) c1Text =
      "^FO10,80\n^AA,N,30,30\n^FD123456789^FS\n" ∧
    generate_zpl {} [c1Text, c1Barcode] =
      "^XA\n^FO10,80\n^AA,N,30,30\n^FD123456789^FS\n^FO10,20\n^BY3,2,100\n^BCN,55,Y,N,Y\n^FD123456789^FS\n^XZ\n" := by
  decide

/-- Claim C1 (amended): same scene, except that the Text object's width
is set to 120 (within 2 units of the barcode's width, as the suppression
rule requires).  Then the Text object is suppressed: its encoded block
is empty and the generated command text omits the Text field-data block
entirely. -/
theorem barcode_text_suppression_with_matching_width :
    skipTextIds [{ c1Text with width := 120 }, c1Barcode] = [1] ∧
    encodeObject (skipTextIds [{ c1Text with width := 120 }, c1Barcode])
      { c1Text with width := 120 } = "" ∧
    generate_zpl {} [{ c1Text with width := 120 }, c1Barcode] =
      "^XA\n^FO10,20\n^BY3,2,100\n^BCN,55,Y,N,Y\n^FD123456789^FS\n^XZ\n" := by
  decide

/-- Claim C4 counterexample: a Rectangle at x = -5 encodes as
"^FO-5,13", but the decoder extracts numbers with a digit-run scan that
drops the minus sign, so the decoded Rectangle sits at x = 5 ≠ -5 — a
sign flip, not integer rounding. -/
theorem rect_roundtrip_cex :
    parse_zpl_file (generate_zpl {} [c4Rect]) =
      [{ obj_type := "rectangle", x := 5, y := 13, width := 80, height := 40,
         thickness := 2, id := 0 }] ∧
    c4Rect.x = -5 ∧
    (parse_zpl_file (generate_zpl {} [c4Rect])).map ZPLObject.x ≠ [c4Rect.x] := by
  decide

/-- Claim C7 counterexample: the encoder strips only the literal ".bmp"
and ".BMP", not general file extensions, and it truncates before
uppercasing.  For reference name "photo.png" the emitted name operand is
"PHOTO.PN" (first 8 characters, extension kept), not "PHOTO" as the
claim's description (uppercase, truncate to 8, strip the extension, in
any order) would give. -/
theorem image_name_cex :
    codeImageName "photo.png" = "PHOTO.PN" ∧
    specImageName "photo.png" = "PHOTO" ∧
    codeImageName "photo.png" ≠ specImageName "photo.png" ∧
    generate_zpl {} [c7Image] = "^XA\n^FO0,0\n^XGPHOTO.PN,1,1^FS\n^XZ\n" := by
  decide

/-- Claim C7 (amended): for every Image object the encoder emits the
position command, followed — exactly when the reference name is
non-empty — by a graphics-reference command whose name operand is the
reference name with all occurrences of ".bmp" and ".BMP" removed, then
truncated to 8 characters, then uppercased; when the reference name is
empty the graphics-reference command is not emitted. -/
theorem image_encode (skip : List Nat) (o : ZPLObject) (h : o.obj_type = "image") :
    encodeObject skip o =
      "^FO" ++ intStr o.x ++ "," ++ intStr o.y ++ "\n" ++
      (if o.text ≠ "" then "^XG" ++ codeImageName o.text ++ ",1,1^FS\n" else "") := by
  rcases o with ⟨ot, x, y, w, hgt, tx, fs, ft, rot, th, bt, lt, sel, i, bm, br, bh, hri⟩
  subst h
  rfl

/-- Witness for the amended claim C7 theorem: a concrete ".bmp" image
and a concrete image with an empty reference name. -/
theorem image_encode_witness :
    encodeObject [] { obj_type := "image", x := 3, y := 4, text := "logo.bmp" } =
      "^FO3,4\n^XGLOGO,1,1^FS\n" ∧
    encodeObject [] { obj_type := "image", x := 3, y := 4, text := "" } = "^FO3,4\n" :=
  ⟨(image_encode [] _ rfl).trans (by decide), (image_encode [] _ rfl).trans (by decide)⟩

/-- Claim C5: for every scene (empty or not) and every label
configuration the encoder output starts with the format-start marker
"^XA" and ends with the format-end marker "^XZ" followed by a line
break. -/
theorem generate_zpl_brackets (ls : LabelSettings) (objs : List ZPLObject) :
    (∃ r, (generate_zpl ls objs).data = '^' :: 'X' :: 'A' :: r) ∧
    (∃ p, (generate_zpl ls objs).data = p ++ ['^', 'X', 'Z', '\n']) := by
  have hd : (generate_zpl ls objs).data =
      '^' :: 'X' :: 'A' :: '\n' ::
        ((if ls.orientation == "Landscape" then "^POI\n" else "").data ++
          ((objs.foldl (fun acc o => acc ++ encodeObject (skipTextIds objs) o) "").data ++
            ['^', 'X', 'Z', '\n'])) := by
    simp [generate_zpl, String.data_append]
  constructor
  · exact ⟨_, hd⟩
  · refine ⟨'^' :: 'X' :: 'A' :: '\n' ::
        ((if ls.orientation == "Landscape" then "^POI\n" else "").data ++
          (objs.foldl (fun acc o => acc ++ encodeObject (skipTextIds objs) o) "").data), ?_⟩
    rw [hd]
    simp [List.append_assoc]

theorem parseLine_nonCommand (st : ParseSt) (raw : List Char)
    (h : isCommandLine (pyStrip raw) = false) : parseLine st raw = st := by
  unfold parseLine
  simp only [isCommandLine, Bool.or_eq_false_iff] at h
  obtain ⟨⟨⟨⟨⟨h1, h2⟩, h3⟩, h4⟩, h5⟩, h6⟩ := h
  by_cases he : pyStrip raw = []
  · simp [he]
  · simp [he, h1, h2, h3, h4, h5, h6]

/-- Claim C8: the decoder is a total function (it is defined for every
input string, hence never raises), and on input in which no line —
after stripping — starts with one of the six command markers it
recognizes, it returns the empty object sequence. -/
theorem parse_zpl_file_unrecognized (content : String)
    (h : ∀ l ∈ splitNl content.data, isCommandLine (pyStrip l) = false) :
    parse_zpl_file content = [] := by
  unfold parse_zpl_file
  have main : ∀ (lines : List (List Char)) (st : ParseSt),
      (∀ l ∈ lines, isCommandLine (pyStrip l) = false) →
      lines.foldl parseLine st = st := by
    intro lines
    induction lines with
    | nil => intro st _; rfl
    | cons l ls ih =>
        intro st hl
        rw [List.foldl_cons, parseLine_nonCommand st l (hl l (by simp))]
        exact ih st (fun x hx => hl x (by simp [hx]))
  rw [main _ _ h]

/-- Witness for the claim C8 theorem: wholly unrecognized text decodes
to the empty sequence. -/
theorem parse_zpl_file_unrecognized_witness :
    parse_zpl_file "hello\nplain text - no commands\n\nXA ^ XZ" = [] :=
  parse_zpl_file_unrecognized "hello\nplain text - no commands\n\nXA ^ XZ" (by decide)

/-! ### Decimal printing and digit-run scanning -/

theorem dropWhile_length_le (p : Char → Bool) (l : List Char) :
    (l.dropWhile p).length ≤ l.length := by
  induction l with
  | nil => simp [List.dropWhile]
  | cons c cs ih =>
      by_cases h : p c
      · simpa [List.dropWhile, h] using Nat.le_succ_of_le ih
      · simp [List.dropWhile, h]

theorem natCharsF_congr (f1 : Nat) : ∀ (f2 n : Nat), n < f1 → n < f2 →
    natCharsF f1 n = natCharsF f2 n := by
  induction f1 with
  | zero => intro f2 n h1 _; omega
  | succ fu ih =>
      intro f2 n h1 h2
      cases f2 with
      | zero => omega
      | succ fv =>
          rw [natCharsF, natCharsF]
          by_cases h10 : n < 10
          · simp [h10]
          · have hd : n / 10 < n := Nat.div_lt_self (by omega) (by omega)
            simp only [h10, if_false]
            rw [ih fv (n / 10) (by omega) (by omega)]

theorem natChars_eq (n : Nat) :
    natChars n = if n < 10 then [digitChar n]
                 else natChars (n / 10) ++ [digitChar (n % 10)] := by
  unfold natChars
  rw [natCharsF]
  by_cases h10 : n < 10
  · simp [h10]
  · have hd : n / 10 < n := Nat.div_lt_self (by omega) (by omega)
    simp only [h10, if_false]
    rw [natCharsF_congr n (n / 10 + 1) (n / 10) (by omega) (by omega)]

theorem digitChar_isDigit (d : Nat) (h : d < 10) : (digitChar d).isDigit = true := by
  interval_cases d <;> decide

theorem digitVal_digitChar (d : Nat) (h : d < 10) : digitVal (digitChar d) = d := by
  interval_cases d <;> decide

theorem natChars_ne_nil (n : Nat) : natChars n ≠ [] := by
  rw [natChars_eq]
  split <;> simp

theorem natChars_digits (n : Nat) : ∀ c ∈ natChars n, c.isDigit = true := by
  induction n using Nat.strong_induction_on with
  | _ n ih =>
      rw [natChars_eq]
      by_cases h10 : n < 10
      · simp only [h10, if_true, List.mem_singleton]
        rintro c rfl
        exact digitChar_isDigit n h10
      · have hd : n / 10 < n := Nat.div_lt_self (by omega) (by omega)
        simp only [h10, if_false, List.mem_append, List.mem_singleton]
        rintro c (hc | rfl)
        · exact ih (n / 10) hd c hc
        · exact digitChar_isDigit (n % 10) (Nat.mod_lt n (by omega))

theorem foldDigits_natChars (n : Nat) : foldDigits (natChars n) = n := by
  induction n using Nat.strong_induction_on with
  | _ n ih =>
      rw [natChars_eq]
      by_cases h10 : n < 10
      · simp only [h10, if_true]
        show 0 * 10 + digitVal (digitChar n) = n
        rw [digitVal_digitChar n h10]
        omega
      · have hd : n / 10 < n := Nat.div_lt_self (by omega) (by omega)
        simp only [h10, if_false]
        unfold foldDigits
        rw [List.foldl_append]
        show (foldDigits (natChars (n / 10))) * 10 + digitVal (digitChar (n % 10)) = n
        rw [ih (n / 10) hd, digitVal_digitChar (n % 10) (Nat.mod_lt n (by omega))]
        omega

theorem isDigit_not_ws (c : Char) (h : c.isDigit = true) : isWS c = false := by
  cases hws : isWS c with
  | false => rfl
  | true =>
      exfalso
      simp only [isWS, Char.isWhitespace] at hws
      simp only [Bool.or_eq_true, decide_eq_true_eq] at hws
      rcases hws with ((rfl | rfl) | rfl) | rfl <;> exact absurd h (by decide)

theorem isDigit_ne_nl (c : Char) (h : c.isDigit = true) : c ≠ '\n' := by
  rintro rfl
  exact absurd h (by decide)

theorem takeWhile_digits (ds : List Char) : ∀ l : List Char,
    (∀ c ∈ ds, c.isDigit = true) → (∀ c ∈ l.take 1, c.isDigit = false) →
    (ds ++ l).takeWhile Char.isDigit = ds ∧ (ds ++ l).dropWhile Char.isDigit = l := by
  induction ds with
  | nil =>
      intro l _ hl
      cases l with
      | nil => simp [List.takeWhile, List.dropWhile]
      | cons c cs =>
          have hc : c.isDigit = false := hl c (by simp)
          simp [List.takeWhile, List.dropWhile, hc]
  | cons d ds ih =>
      intro l hd hl
      have hdd : d.isDigit = true := hd d (by simp)
      have hrest := ih l (fun c hc => hd c (by simp [hc])) hl
      simp only [List.cons_append, List.takeWhile, List.dropWhile, hdd, List.append_eq]
      exact ⟨by rw [hrest.1], by rw [hrest.2]⟩

theorem digitRunsF_congr (f1 : Nat) : ∀ (f2 : Nat) (l : List Char),
    l.length < f1 → l.length < f2 → digitRunsF f1 l = digitRunsF f2 l := by
  induction f1 with
  | zero => intro f2 l h1 _; omega
  | succ fu ih =>
      intro f2 l h1 h2
      cases f2 with
      | zero => omega
      | succ fv =>
          cases l with
          | nil => rfl
          | cons c cs =>
              rw [digitRunsF, digitRunsF]
              cases hc : c.isDigit with
              | true =>
                  simp only [hc, if_true]
                  have hlen := dropWhile_length_le Char.isDigit cs
                  rw [ih fv (cs.dropWhile Char.isDigit) (by simp at h1; omega) (by simp at h2; omega)]
              | false =>
                  simp only [hc, Bool.false_eq_true, if_false]
                  rw [ih fv cs (by simp at h1; omega) (by simp at h2; omega)]

theorem digitRuns_cons_digit (c : Char) (cs : List Char) (h : c.isDigit = true) :
    digitRuns (c :: cs) =
      (c :: cs.takeWhile Char.isDigit) :: digitRuns (cs.dropWhile Char.isDigit) := by
  unfold digitRuns
  rw [show (c :: cs).length + 1 = (cs.length + 1) + 1 from by simp, digitRunsF]
  simp only [h, if_true]
  have hlen := dropWhile_length_le Char.isDigit cs
  rw [digitRunsF_congr (cs.length + 1) ((cs.dropWhile Char.isDigit).length + 1)
        (cs.dropWhile Char.isDigit) (by omega) (by omega)]

theorem digitRuns_cons_nondigit (c : Char) (cs : List Char) (h : c.isDigit = false) :
    digitRuns (c :: cs) = digitRuns cs := by
  unfold digitRuns
  rw [show (c :: cs).length + 1 = (cs.length + 1) + 1 from by simp, digitRunsF]
  simp only [h, Bool.false_eq_true, if_false]

theorem digitRuns_nondigit_append (a : List Char) : ∀ l : List Char,
    (∀ c ∈ a, c.isDigit = false) → digitRuns (a ++ l) = digitRuns l := by
  induction a with
  | nil => intro l _; rfl
  | cons c a ih =>
      intro l h
      rw [List.cons_append, digitRuns_cons_nondigit c (a ++ l) (h c (by simp))]
      exact ih l (fun x hx => h x (by simp [hx]))

theorem digitRuns_digits_append (ds l : List Char) (hne : ds ≠ [])
    (hd : ∀ c ∈ ds, c.isDigit = true) (hl : ∀ c ∈ l.take 1, c.isDigit = false) :
    digitRuns (ds ++ l) = ds :: digitRuns l := by
  cases ds with
  | nil => exact absurd rfl hne
  | cons d ds =>
      have hdd : d.isDigit = true := hd d (by simp)
      have hrest := takeWhile_digits ds l (fun c hc => hd c (by simp [hc])) hl
      rw [List.cons_append, digitRuns_cons_digit d (ds ++ l) hdd, hrest.1, hrest.2]

theorem digitRuns_digits (ds : List Char) (hne : ds ≠ [])
    (hd : ∀ c ∈ ds, c.isDigit = true) : digitRuns ds = [ds] := by
  have h := digitRuns_digits_append ds [] hne hd (by simp)
  simpa using h

theorem splitNl_append_line (a : List Char) : ∀ l : List Char, (∀ c ∈ a, c ≠ '\n') →
    splitNl (a ++ '\n' :: l) = a :: splitNl l := by
  induction a with
  | nil => intro l _; simp [splitNl]
  | cons c a ih =>
      intro l h
      have hc : c ≠ '\n' := h c (by simp)
      rw [List.cons_append]
      simp only [splitNl, if_neg hc, ih l (fun x hx => h x (by simp [hx]))]

theorem dropWhile_eq_self_head (l : List Char) (h : ∀ c ∈ l.take 1, isWS c = false) :
    l.dropWhile isWS = l := by
  cases l with
  | nil => rfl
  | cons c cs => simp [List.dropWhile, h c (by simp)]

theorem pyStrip_eq_self (l : List Char) (h : ∀ c ∈ l, isWS c = false) : pyStrip l = l := by
  unfold pyStrip
  rw [dropWhile_eq_self_head l (fun c hc => h c (List.take_subset 1 l hc))]
  rw [dropWhile_eq_self_head l.reverse
        (fun c hc => h c (List.mem_reverse.mp (List.take_subset 1 _ hc)))]
  exact List.reverse_reverse l

theorem parseLine_no_cmd_XA (st : ParseSt) : parseLine st ['^', 'X', 'A'] = st := rfl

theorem parseLine_no_cmd_POI (st : ParseSt) : parseLine st ['^', 'P', 'O', 'I'] = st := rfl

theorem parseLine_no_cmd_XZ (st : ParseSt) : parseLine st ['^', 'X', 'Z'] = st := rfl

theorem parseLine_no_cmd_empty (st : ParseSt) : parseLine st [] = st := rfl

theorem take_one_cons (c : Char) (cs : List Char) : (c :: cs).take 1 = [c] := rfl

theorem parseLine_FO (st : ParseSt) (nx ny : Nat) :
    parseLine st ('^' :: 'F' :: 'O' :: (natChars nx ++ ',' :: natChars ny)) =
      { st with cx := (nx : Int), cy := (ny : Int) } := by
  have hnw : ∀ c ∈ ('^' :: 'F' :: 'O' :: (natChars nx ++ ',' :: natChars ny)), isWS c = false := by
    intro c hc
    simp only [List.mem_cons, List.mem_append] at hc
    rcases hc with rfl | rfl | rfl | hc | hc
    · decide
    · decide
    · decide
    · exact isDigit_not_ws c (natChars_digits nx c hc)
    · rcases hc with rfl | hc
      · decide
      · exact isDigit_not_ws c (natChars_digits ny c hc)
  have hstrip := pyStrip_eq_self _ hnw
  have hruns : digitRuns ('^' :: 'F' :: 'O' :: (natChars nx ++ ',' :: natChars ny)) =
      [natChars nx, natChars ny] := by
    rw [show ('^' :: 'F' :: 'O' :: (natChars nx ++ ',' :: natChars ny)) =
          ['^', 'F', 'O'] ++ (natChars nx ++ ',' :: natChars ny) from rfl]
    rw [digitRuns_nondigit_append ['^', 'F', 'O'] _ (by decide)]
    rw [digitRuns_digits_append (natChars nx) (',' :: natChars ny) (natChars_ne_nil nx)
          (natChars_digits nx) (by rw [take_one_cons]; decide)]
    rw [digitRuns_cons_nondigit ',' _ (by decide)]
    rw [digitRuns_digits (natChars ny) (natChars_ne_nil ny) (natChars_digits ny)]
  unfold parseLine
  simp only [hstrip]
  rw [if_neg (by simp), if_pos (by simp [hasPre]), hruns]
  simp only [foldDigits_natChars]

theorem parseLine_GB (st : ParseSt) (nw nh nt : Nat) :
    parseLine st ('^' :: 'G' :: 'B' ::
        (natChars nw ++ ',' :: (natChars nh ++ ',' :: (natChars nt ++ ['^', 'F', 'S'])))) =
      { st with objs := st.objs ++ [{ obj_type := "rectangle", x := st.cx, y := st.cy,
                                      width := (nw : Int), height := (nh : Int),
                                      thickness := (nt : Int), id := st.nid }],
                nid := st.nid + 1 } := by
  have hnw : ∀ c ∈ ('^' :: 'G' :: 'B' ::
      (natChars nw ++ ',' :: (natChars nh ++ ',' :: (natChars nt ++ ['^', 'F', 'S'])))),
      isWS c = false := by
    intro c hc
    simp only [List.mem_cons, List.mem_append] at hc
    rcases hc with rfl | rfl | rfl | hc | hc
    · decide
    · decide
    · decide
    · exact isDigit_not_ws c (natChars_digits nw c hc)
    · rcases hc with rfl | hc | hc
      · decide
      · exact isDigit_not_ws c (natChars_digits nh c hc)
      · rcases hc with rfl | hc | hc
        · decide
        · exact isDigit_not_ws c (natChars_digits nt c hc)
        · simp only [List.mem_cons, List.not_mem_nil, or_false] at hc
          rcases hc with rfl | rfl | rfl <;> decide
  have hstrip := pyStrip_eq_self _ hnw
  have hruns : digitRuns ('^' :: 'G' :: 'B' ::
      (natChars nw ++ ',' :: (natChars nh ++ ',' :: (natChars nt ++ ['^', 'F', 'S'])))) =
      [natChars nw, natChars nh, natChars nt] := by
    rw [show ('^' :: 'G' :: 'B' ::
          (natChars nw ++ ',' :: (natChars nh ++ ',' :: (natChars nt ++ ['^', 'F', 'S'])))) =
          ['^', 'G', 'B'] ++
            (natChars nw ++ ',' :: (natChars nh ++ ',' :: (natChars nt ++ ['^', 'F', 'S'])))
        from rfl]
    rw [digitRuns_nondigit_append ['^', 'G', 'B'] _ (by decide)]
    rw [digitRuns_digits_append (natChars nw) _ (natChars_ne_nil nw)
          (natChars_digits nw) (by rw [take_one_cons]; decide)]
    rw [digitRuns_cons_nondigit ',' _ (by decide)]
    rw [digitRuns_digits_append (natChars nh) _ (natChars_ne_nil nh)
          (natChars_digits nh) (by rw [take_one_cons]; decide)]
    rw [digitRuns_cons_nondigit ',' _ (by decide)]
    rw [digitRuns_digits_append (natChars nt) ['^', 'F', 'S'] (natChars_ne_nil nt)
          (natChars_digits nt) (by rw [take_one_cons]; decide)]
    rw [show digitRuns ['^', 'F', 'S'] = [] from by decide]
  unfold parseLine
  simp only [hstrip]
  rw [if_neg (by simp), if_neg (by simp [hasPre]), if_neg (by simp [hasPre]),
      if_neg (by simp [hasPre]), if_pos (by simp [hasPre]), hruns]
  simp only [foldDigits_natChars]

theorem intStr_coe (n : Nat) : intStr (n : Int) = natStr n := by
  unfold intStr
  rw [if_neg (by omega)]
  simp

theorem natChars_ne_nl (n : Nat) : ∀ c ∈ natChars n, c ≠ '\n' :=
  fun c hc => isDigit_ne_nl c (natChars_digits n c hc)

theorem FO_line_no_nl (nx ny : Nat) :
    ∀ c ∈ ('^' :: 'F' :: 'O' :: (natChars nx ++ ',' :: natChars ny)), c ≠ '\n' := by
  intro c hc
  simp only [List.mem_cons, List.mem_append] at hc
  rcases hc with rfl | rfl | rfl | hc | hc
  · decide
  · decide
  · decide
  · exact natChars_ne_nl nx c hc
  · rcases hc with rfl | hc
    · decide
    · exact natChars_ne_nl ny c hc

theorem GB_line_no_nl (nw nh nt : Nat) :
    ∀ c ∈ ('^' :: 'G' :: 'B' ::
        (natChars nw ++ ',' :: (natChars nh ++ ',' :: (natChars nt ++ ['^', 'F', 'S'])))),
      c ≠ '\n' := by
  intro c hc
  simp only [List.mem_cons, List.mem_append] at hc
  rcases hc with rfl | rfl | rfl | hc | hc
  · decide
  · decide
  · decide
  · exact natChars_ne_nl nw c hc
  · rcases hc with rfl | hc | hc
    · decide
    · exact natChars_ne_nl nh c hc
    · rcases hc with rfl | hc | hc
      · decide
      · exact natChars_ne_nl nt c hc
      · simp only [List.mem_cons, List.not_mem_nil, or_false] at hc
        rcases hc with rfl | rfl | rfl <;> decide

/-- Claim C4 (amended): encoding a scene with exactly one Rectangle
whose position, size and border thickness are nonnegative, then decoding
the result, yields exactly one Rectangle whose x, y, width, height and
thickness equal those of the original exactly (SCALE = 1.0 makes the
integer passes lossless); negative values are excluded because the
decoder's digit scan drops minus signs (see the counterexample). -/
theorem rect_roundtrip (ls : LabelSettings) (o : ZPLObject) (hty : o.obj_type = "rectangle")
    (hx : 0 ≤ o.x) (hy : 0 ≤ o.y) (hw : 0 ≤ o.width) (hh : 0 ≤ o.height)
    (ht : 0 ≤ o.thickness) :
    parse_zpl_file (generate_zpl ls [o]) =
      [{ obj_type := "rectangle", x := o.x, y := o.y, width := o.width,
         height := o.height, thickness := o.thickness, id := 0 }] := by
  rcases o with ⟨ot, x, y, w, h, tx, fs, ft, rot, th, bt, lt, sel, i, bm, br, bh, hri⟩
  subst hty
  simp only [] at hx hy hw hh ht ⊢
  obtain ⟨nx, rfl⟩ : ∃ n : Nat, x = (n : Int) := ⟨x.toNat, (Int.toNat_of_nonneg hx).symm⟩
  obtain ⟨ny, rfl⟩ : ∃ n : Nat, y = (n : Int) := ⟨y.toNat, (Int.toNat_of_nonneg hy).symm⟩
  obtain ⟨nw, rfl⟩ : ∃ n : Nat, w = (n : Int) := ⟨w.toNat, (Int.toNat_of_nonneg hw).symm⟩
  obtain ⟨nh, rfl⟩ : ∃ n : Nat, h = (n : Int) := ⟨h.toNat, (Int.toNat_of_nonneg hh).symm⟩
  obtain ⟨nt, rfl⟩ : ∃ n : Nat, th = (n : Int) := ⟨th.toNat, (Int.toNat_of_nonneg ht).symm⟩
  by_cases hor : (ls.orientation == "Landscape") = true
  · have hdata : (generate_zpl ls
        [{ obj_type := "rectangle", x := (nx : Int), y := (ny : Int), width := (nw : Int),
           height := (nh : Int), text := tx, font_size := fs, font_type := ft,
           rotation := rot, thickness := (nt : Int), barcode_type := bt,
           line_thickness := lt, selected := sel, id := i, bar_module := bm,
           bar_ratio := br, bar_height := bh, hri_above := hri }]).data =
        ['^', 'X', 'A'] ++ '\n' ::
          (['^', 'P', 'O', 'I'] ++ '\n' ::
            (('^' :: 'F' :: 'O' :: (natChars nx ++ ',' :: natChars ny)) ++ '\n' ::
              (('^' :: 'G' :: 'B' :: (natChars nw ++ ',' ::
                  (natChars nh ++ ',' :: (natChars nt ++ ['^', 'F', 'S'])))) ++ '\n' ::
                (['^', 'X', 'Z'] ++ '\n' :: [])))) := by
      simp [generate_zpl, skipTextIds, encodeObject, hor, intStr_coe, natStr,
            String.data_append, List.append_assoc]
    unfold parse_zpl_file
    rw [hdata,
        splitNl_append_line ['^', 'X', 'A'] _ (by decide),
        splitNl_append_line ['^', 'P', 'O', 'I'] _ (by decide),
        splitNl_append_line _ _ (FO_line_no_nl nx ny),
        splitNl_append_line _ _ (GB_line_no_nl nw nh nt),
        splitNl_append_line ['^', 'X', 'Z'] _ (by decide)]
    rw [List.foldl_cons, parseLine_no_cmd_XA, List.foldl_cons, parseLine_no_cmd_POI,
        List.foldl_cons, parseLine_FO, List.foldl_cons, parseLine_GB,
        List.foldl_cons, parseLine_no_cmd_XZ]
    simp [splitNl, parseLine_no_cmd_empty]
  · have hdata : (generate_zpl ls
        [{ obj_type := "rectangle", x := (nx : Int), y := (ny : Int), width := (nw : Int),
           height := (nh : Int), text := tx, font_size := fs, font_type := ft,
           rotation := rot, thickness := (nt : Int), barcode_type := bt,
           line_thickness := lt, selected := sel, id := i, bar_module := bm,
           bar_ratio := br, bar_height := bh, hri_above := hri }]).data =
        ['^', 'X', 'A'] ++ '\n' ::
          (('^' :: 'F' :: 'O' :: (natChars nx ++ ',' :: natChars ny)) ++ '\n' ::
            (('^' :: 'G' :: 'B' :: (natChars nw ++ ',' ::
                (natChars nh ++ ',' :: (natChars nt ++ ['^', 'F', 'S'])))) ++ '\n' ::
              (['^', 'X', 'Z'] ++ '\n' :: []))) := by
      simp [generate_zpl, skipTextIds, encodeObject, hor, intStr_coe, natStr,
            String.data_append, List.append_assoc]
    unfold parse_zpl_file
    rw [hdata,
        splitNl_append_line ['^', 'X', 'A'] _ (by decide),
        splitNl_append_line _ _ (FO_line_no_nl nx ny),
        splitNl_append_line _ _ (GB_line_no_nl nw nh nt),
        splitNl_append_line ['^', 'X', 'Z'] _ (by decide)]
    rw [List.foldl_cons, parseLine_no_cmd_XA,
        List.foldl_cons, parseLine_FO, List.foldl_cons, parseLine_GB,
        List.foldl_cons, parseLine_no_cmd_XZ]
    simp [splitNl, parseLine_no_cmd_empty]

/-- Witness for the amended claim C4 theorem: a concrete nonnegative
Rectangle round-trips exactly. -/
theorem rect_roundtrip_witness :
    parse_zpl_file (generate_zpl {}
        [{ obj_type := "rectangle", x := 7, y := 13, width := 80, height := 40,
           thickness := 2, id := 9 }]) =
      [{ obj_type := "rectangle", x := 7, y := 13, width := 80, height := 40,
         thickness := 2, id := 0 }] :=
  rect_roundtrip {} _ rfl (by decide) (by decide) (by decide) (by decide) (by decide)
